import Mathlib

/-!
Shallow embedding of the asynchronous remote-mirroring subsystem of this
progress-indicator library: the two remote progress sinks
(class `DiscordIO` in `tqdm/contrib/discord.py`, here `DiscordSink`, and
class `TelegramIO` in `tqdm/contrib/telegram.py`, here `TelegramSink`),
the driver hooks of the derived meters
(`tqdm_discord.close` / `tqdm_telegram.close` and the sink-constructing
`__init__`s), the bounded single-worker dispatcher (`MonoWorker`, modelled
from the specification since `utils_worker.py` is not among the sources),
and the logging-redirection helper (`tqdm/contrib/logging.py`).

Python effects are made explicit: every outgoing HTTP request is recorded
as a `NetCall` event, every `tqdm_auto.write` to the local display stream
and every `warnings.warn` as a `LocalOut` event, and Python exceptions as
`Except PyExn` results; the behaviour of the remote backend (the response
or exception a request produces) is supplied by oracle arguments, so each
theorem quantifies over all backend behaviours.
-/

namespace Tqdm

/-- Whitespace set of Python's `str.strip()` (ASCII part). -/
def isPySpace (c : Char) : Bool :=
  c = ' ' || c = '\t' || c = '\n' || c = '\r' || c = Char.ofNat 11 || c = Char.ofNat 12

/-- Python's `s.replace('\r', '')`: every carriage return is removed. -/
def removeCR (s : String) : String :=
  ⟨s.data.filter (fun c => c ≠ '\r')⟩

/-- Python's `s.strip()`: drop leading and trailing whitespace. -/
def pyStrip (s : String) : String :=
  ⟨((s.data.dropWhile isPySpace).reverse.dropWhile isPySpace).reverse⟩

/-- Truthiness of the `s` argument of `write`: `None` and `""` are falsy. -/
def pyFalsy : Option String → Bool
  | none => true
  | some s => s = ""

/-- The normalisation both sinks' `write` applies before the dedup check:
`if not s: s = "..."` followed by `s = s.replace('\r', '').strip()`. -/
def normalize (s? : Option String) : String :=
  let s := if pyFalsy s? then "..." else s?.getD ""
  pyStrip (removeCR s)

/-- One outgoing HTTP request (either issued synchronously, for message
creation, or handed to the dispatcher by `submit`). -/
inductive NetCall where
  | discordCreate (channel content : String)
  | discordPatch (channel messageId content : String)
  | discordDelete (channel messageId : String)
  | tgSendMessage (chat content : String)
  | tgEditMessage (chat : String) (messageId : Nat) (content : String)
  | tgDeleteMessage (chat : String) (messageId : Nat)
  deriving DecidableEq, Repr

/-- Is this request a message-creation request? -/
def NetCall.isCreate : NetCall → Bool
  | .discordCreate _ _ => true
  | .tgSendMessage _ _ => true
  | _ => false

/-- A Python exception object (only `Exception` subclasses appear here;
both sinks' handlers catch bare `Exception`). -/
inductive PyExn where
  | keyError
  | attributeError
  | requestError
  | submitError
  deriving DecidableEq, Repr

/-- One event on the local side: a `tqdm_auto.write` of an error string to
the display stream, or a `warnings.warn` rate-limit warning. -/
inductive LocalOut where
  | displayWrite (e : PyExn)
  | warn429
  deriving DecidableEq, Repr

/-- Backend behaviour for the Discord create POST
(`requests.post(.../messages).json()`): either the call raises, or it
returns a JSON object that may or may not contain an `"id"` field. -/
inductive DCreateRes where
  | exn (e : PyExn)
  | resp (hasId : Bool) (msgId : String)
  deriving DecidableEq, Repr

/-- Behaviour of one `MonoWorker.submit` call: it returns a future or
raises. -/
inductive SubmitRes where
  | ok
  | exn (e : PyExn)
  deriving DecidableEq, Repr

/-! ### DiscordSink (`tqdm/contrib/discord.py`) -/

/-- State of a sink of the `DiscordIO` class: credentials, the `text`
field holding the last content recorded by `write`, and the
`_message_id` attribute (`none` while the attribute is unset). -/
structure DiscordSink where
  token : String
  channel_id : String
  text : String
  message_id : Option String
  deriving DecidableEq, Repr

/-- The `message_id` property: if `_message_id` is set return it; otherwise
POST a create request for content `'`' + self.text + '`'` and record the
returned id when the response has one, swallowing (and logging) any
exception. Returns the updated sink, the property's value (`None` when
creation failed), and the recorded net/local events. -/
def DiscordSink.messageIdProp (io : DiscordSink) (oracle : DCreateRes) :
    DiscordSink × Option String × List NetCall × List LocalOut :=
  match io.message_id with
  | some mid => (io, some mid, [], [])
  | none =>
    let calls := [NetCall.discordCreate io.channel_id ("`" ++ io.text ++ "`")]
    match oracle with
    | .exn e => (io, none, calls, [.displayWrite e])
    | .resp hasId mid =>
      if hasId then
        ({ io with message_id := some mid }, some mid, calls, [])
      else
        (io, none, calls, [])

/-- Construct a `DiscordSink`: store credentials, set `text` to the class
name and evaluate the `message_id` property once. -/
def DiscordSink.init (token channel_id : String) (oracle : DCreateRes) :
    DiscordSink × List NetCall × List LocalOut :=
  let io : DiscordSink :=
    { token := token, channel_id := channel_id
      text := "DiscordIO", message_id := none }
  let (io1, _, cs, ls) := io.messageIdProp oracle
  (io1, cs, ls)

/-- Result of a sink `write`/`delete` call: updated sink, recorded net
calls, local output, and the Python return value (`some ()` when a future
was returned, `none` when the method fell through or returned early). -/
structure SinkOut (σ : Type) where
  io : σ
  calls : List NetCall
  out : List LocalOut
  future : Option Unit
  deriving DecidableEq, Repr

/-- `DiscordSink.write`: normalise `s`, return early if it equals `self.text`,
evaluate the `message_id` property (re-attempting creation when unset!),
return if it is `None`, else record the text and submit a PATCH.
The whole submission is wrapped in `try/except Exception`, so the call
never raises; the `Except` result makes that placement explicit. -/
def DiscordSink.write (io : DiscordSink) (s? : Option String)
    (createOracle : DCreateRes) (submitOracle : SubmitRes) :
    Except PyExn (SinkOut DiscordSink) :=
  let s := normalize s?
  if s = io.text then
    .ok ⟨io, [], [], none⟩
  else
    let (io1, mid?, cs, ls) := io.messageIdProp createOracle
    match mid? with
    | none => .ok ⟨io1, cs, ls, none⟩
    | some mid =>
      let io2 := { io1 with text := s }
      match submitOracle with
      | .exn e => .ok ⟨io2, cs, ls ++ [.displayWrite e], none⟩
      | .ok =>
        .ok ⟨io2, cs ++ [NetCall.discordPatch io2.channel_id mid ("`" ++ s ++ "`")],
             ls, some ()⟩

/-- Python's `f"{x}"` of an optional id: `None` prints as `"None"`. -/
def pyStr : Option String → String
  | none => "None"
  | some s => s

/-- `DiscordSink.delete`: submit a DELETE for `self.message_id` (the property:
a fresh create attempt happens when `_message_id` is unset, and the URL
interpolates `None` when it stays unset). Wrapped in `try/except`. -/
def DiscordSink.delete (io : DiscordSink) (createOracle : DCreateRes)
    (submitOracle : SubmitRes) : Except PyExn (SinkOut DiscordSink) :=
  let (io1, mid?, cs, ls) := io.messageIdProp createOracle
  match submitOracle with
  | .exn e => .ok ⟨io1, cs, ls ++ [.displayWrite e], none⟩
  | .ok =>
    .ok ⟨io1, cs ++ [NetCall.discordDelete io1.channel_id (pyStr mid?)], ls, some ()⟩

/-! ### TelegramSink (`tqdm/contrib/telegram.py`) -/

/-- Backend behaviour for the Telegram create POST
(`session.post(.../sendMessage)`): either the call raises, or it returns a
JSON object with an optional `error_code` field and an optional
`result.message_id` field. -/
inductive TgCreateRes where
  | exn (e : PyExn)
  | resp (errorCode : Option Nat) (resultMessageId : Option Nat)
  deriving DecidableEq, Repr

/-- State of a sink of the `TelegramIO` class: credentials, the `text`
field, and the `message_id` attribute, which `__init__` may leave unset
(`none`). -/
structure TelegramSink where
  token : String
  chat_id : String
  text : String
  message_id : Option Nat
  deriving DecidableEq, Repr

/-- Construct a `TelegramSink`: set `text` to the class name, POST the create
request; an exception is swallowed and logged (leaving `message_id`
unset), while in the `else` branch a 429 `error_code` triggers a
`warnings.warn` and `res.json()['result']['message_id']` raises an
uncaught `KeyError` when the response carries no result. -/
def TelegramSink.init (token chat_id : String) (oracle : TgCreateRes) :
    Except PyExn TelegramSink × List NetCall × List LocalOut :=
  let io : TelegramSink :=
    { token := token, chat_id := chat_id, text := "TelegramIO", message_id := none }
  let calls := [NetCall.tgSendMessage chat_id ("`" ++ io.text ++ "`")]
  match oracle with
  | .exn e => (.ok io, calls, [.displayWrite e])
  | .resp errorCode result =>
    let warns : List LocalOut := if errorCode = some 429 then [.warn429] else []
    match result with
    | some mid => (.ok { io with message_id := some mid }, calls, warns)
    | none => (.error .keyError, calls, warns)

/-- `TelegramSink.write`: normalise `s`, return early if it equals
`self.text`, record `self.text = s`, then inside `try` build the edit
request — reading `self.message_id` raises `AttributeError` when it was
never set — and submit it; any exception is caught and logged. -/
def TelegramSink.write (io : TelegramSink) (s? : Option String)
    (submitOracle : SubmitRes) : Except PyExn (SinkOut TelegramSink) :=
  let s := normalize s?
  if s = io.text then
    .ok ⟨io, [], [], none⟩
  else
    let io1 := { io with text := s }
    match io1.message_id with
    | none => .ok ⟨io1, [], [.displayWrite .attributeError], none⟩
    | some mid =>
      match submitOracle with
      | .exn e => .ok ⟨io1, [], [.displayWrite e], none⟩
      | .ok =>
        .ok ⟨io1, [NetCall.tgEditMessage io1.chat_id mid ("`" ++ s ++ "`")],
             [], some ()⟩

/-- `TelegramSink.delete`: inside `try` build the delete request — reading
`self.message_id` raises `AttributeError` when unset — and submit it; any
exception is caught and logged. -/
def TelegramSink.delete (io : TelegramSink) (submitOracle : SubmitRes) :
    Except PyExn (SinkOut TelegramSink) :=
  match io.message_id with
  | none => .ok ⟨io, [], [.displayWrite .attributeError], none⟩
  | some mid =>
    match submitOracle with
    | .exn e => .ok ⟨io, [], [.displayWrite e], none⟩
    | .ok => .ok ⟨io, [NetCall.tgDeleteMessage io.chat_id mid], [], some ()⟩

/-! ### Driver hooks: meter construction and `close` -/

/-- Python truthiness of the tri-valued `leave` flag (`None`/`False`/`True`). -/
def leaveTruthy : Option Bool → Bool
  | some b => b
  | none => false

/-- An action performed by the `close` override, in order. -/
inductive CloseAct where
  | baseClose
  | sinkDelete
  deriving DecidableEq, Repr

/-- The `close` override shared verbatim by `tqdm_discord` and
`tqdm_telegram`: return immediately when disabled; otherwise run the base
`close`, then call the sink's `delete` unless
`self.leave or (self.leave is None and self.pos == 0)`.
Result: the sequence of actions taken. -/
def tqdmMirrorClose (disable : Bool) (leave : Option Bool) (pos : Int) :
    List CloseAct :=
  if disable then []
  else
    [CloseAct.baseClose] ++
      (if leaveTruthy leave || (leave = none && pos = 0) then []
       else [CloseAct.sinkDelete])

/-- The value of the `disable` keyword argument as the constructor sees it:
`none` when absent (`kwargs.get` yields `None`), else the given Bool. -/
def disableTruthy : Option Bool → Bool
  | some b => b
  | none => false

/-- `tqdm_discord.__init__`: construct the `DiscordSink` sink if and only if
`kwargs.get("disable")` is falsy. Returns the sink (when built) with the
network and local events its construction produced. -/
def tqdm_discord_init (disable : Option Bool) (token channel_id : String)
    (oracle : DCreateRes) :
    Option DiscordSink × List NetCall × List LocalOut :=
  if disableTruthy disable then (none, [], [])
  else
    let (io, cs, ls) := DiscordSink.init token channel_id oracle
    (some io, cs, ls)

/-- `tqdm_telegram.__init__`: construct the `TelegramSink` sink if and only
if `kwargs.get("disable")` is falsy; the sink constructor may raise. -/
def tqdm_telegram_init (disable : Option Bool) (token chat_id : String)
    (oracle : TgCreateRes) :
    Except PyExn (Option TelegramSink) × List NetCall × List LocalOut :=
  if disableTruthy disable then (.ok none, [], [])
  else
    match TelegramSink.init token chat_id oracle with
    | (.ok io, cs, ls) => (.ok (some io), cs, ls)
    | (.error e, cs, ls) => (.error e, cs, ls)

/-! ### Bounded async dispatcher (`MonoWorker`) -/

/-- Modelled from the spec: `utils_worker.py` (the `MonoWorker` dispatcher
both sinks inherit `submit` from) is not among the source files. Per
spec §4.1/§5, `submit` enqueues the callable on the single worker thread,
appends the handle to the backlog, and when the backlog length exceeds
N = 2 pops the oldest handle, cancelling it if it has not yet started
(a cancelled callable never runs; a started one finishes). Tasks are
identified by submission index. `queue` is the worker thread's FIFO of
enqueued task ids, `backlog` the dispatcher's bounded handle list
(oldest first), `started` the ids that began executing, in start order. -/
structure MonoWorker where
  nextId : Nat
  queue : List Nat
  backlog : List Nat
  cancelled : List Nat
  started : List Nat
  deriving DecidableEq, Repr

/-- Modelled from the spec: the dispatcher's initial state — empty queue,
empty backlog, nothing started or cancelled. -/
def MonoWorker.initState : MonoWorker :=
  { nextId := 0, queue := [], backlog := [], cancelled := [], started := [] }

/-- Modelled from the spec: one `submit` call — enqueue a fresh task id,
append its handle to the backlog, and if the backlog now exceeds 2
entries pop the oldest, cancelling it unless it already started. -/
def MonoWorker.submit (w : MonoWorker) : MonoWorker :=
  let id := w.nextId
  let q := w.queue ++ [id]
  let b := w.backlog ++ [id]
  if 2 < b.length then
    match b with
    | [] => w
    | o :: rest =>
      { nextId := id + 1, queue := q, backlog := rest
        cancelled := if o ∈ w.started then w.cancelled else o :: w.cancelled
        started := w.started }
  else
    { w with nextId := id + 1, queue := q, backlog := b }

/-- Modelled from the spec: the worker thread takes the next enqueued task;
a cancelled future is discarded without its callable being run, any other
task starts executing (and, being the only worker, runs to completion
before the next one starts). -/
def MonoWorker.runStep (w : MonoWorker) : MonoWorker :=
  match w.queue with
  | [] => w
  | t :: q' =>
    if t ∈ w.cancelled then { w with queue := q' }
    else { w with queue := q', started := w.started ++ [t] }

/-- An observable scheduling event: a caller `submit`, or the worker thread
picking up the next task. -/
inductive DEvent where
  | submit
  | step
  deriving DecidableEq, Repr

/-- Apply one event to the dispatcher state. -/
def MonoWorker.applyEvent (w : MonoWorker) : DEvent → MonoWorker
  | .submit => w.submit
  | .step => w.runStep

/-- Run the dispatcher from its initial state through a sequence of
submissions and worker steps. -/
def MonoWorker.run (evs : List DEvent) : MonoWorker :=
  evs.foldl MonoWorker.applyEvent MonoWorker.initState

/-! ### Logging redirection (`tqdm/contrib/logging.py`) -/

/-- A `logging` handler as `logging_redirect_tqdm` distinguishes them: a
`StreamHandler` attached to stream `s` (streams are numbered, `0` =
`sys.stdout`, `1` = `sys.stderr`), some other handler, or a
`_TqdmLoggingHandler` (itself a `StreamHandler` on stream `s` with
formatter `fmt`). -/
inductive LHandler where
  | stream (s : Nat) (fmt : Option Nat)
  | other (id : Nat)
  | tqdmH (s : Nat) (fmt : Option Nat)
  deriving DecidableEq, Repr

/-- `_is_console_logging_handler`: a `StreamHandler` (which includes
`_TqdmLoggingHandler`) whose stream is `sys.stdout` or `sys.stderr`. -/
def isConsoleHandler : LHandler → Bool
  | .stream s _ => s = 0 || s = 1
  | .tqdmH s _ => s = 0 || s = 1
  | .other _ => false

/-- `_get_first_found_console_logging_handler`. -/
def firstConsoleHandler (hs : List LHandler) : Option LHandler :=
  hs.find? isConsoleHandler

/-- Formatter of a handler (`handler.formatter`). -/
def handlerFmt : LHandler → Option Nat
  | .stream _ f => f
  | .tqdmH _ f => f
  | .other _ => none

/-- Stream of a handler (`handler.stream`; `other` handlers have none;
a fresh `StreamHandler()` defaults to `sys.stderr` = 1). -/
def handlerStream : LHandler → Nat
  | .stream s _ => s
  | .tqdmH s _ => s
  | .other _ => 1

/-- The `_TqdmLoggingHandler` built for one logger: a fresh handler on
`sys.stderr`, whose formatter and stream are copied from the first
console handler of the logger when one exists. -/
def mkTqdmHandler (hs : List LHandler) : LHandler :=
  match firstConsoleHandler hs with
  | some h => .tqdmH (handlerStream h) (handlerFmt h)
  | none => .tqdmH 1 none

/-- The handler list installed on one logger while the context is active:
all non-console handlers, in order, followed by the new tqdm handler. -/
def redirectOne (hs : List LHandler) : List LHandler :=
  hs.filter (fun h => !isConsoleHandler h) ++ [mkTqdmHandler hs]

/-- The `finally` block's
`for logger, original in zip(loggers, original_handlers_list):
logger.handlers = original` — positions covered by the zip get their
saved list back, positions beyond the zip (none in practice, the two
lists always have equal length) keep their current handlers. -/
def finallyRestore (current originals : List (List LHandler)) :
    List (List LHandler) :=
  List.zipWith (fun _ o => o) current originals ++ current.drop originals.length

/-- `logging_redirect_tqdm` over a list of loggers, each represented
positionally by its `handlers` attribute: save `original_handlers_list`,
install the redirected lists, run the body — which sees the redirected
lists, may itself reassign any logger's handlers, and may return
normally or raise — then restore every logger's saved list in a
`finally`. Returns the body's outcome and the final handler lists. -/
def logging_redirect_tqdm {α : Type}
    (loggers : List (List LHandler))
    (body : List (List LHandler) → Except PyExn α × List (List LHandler)) :
    Except PyExn α × List (List LHandler) :=
  let originalHandlersList := loggers
  let redirected := loggers.map redirectOne
  let (r, afterBody) := body redirected
  (r, finallyRestore afterBody originalHandlersList)

/-! ### Concrete sink states and small helpers used by the theorems -/

/-- Does this create-oracle outcome fail to yield a message identifier
(an exception, or a response without an `"id"` field)? -/
def DCreateRes.noId : DCreateRes → Bool
  | .exn _ => true
  | .resp hasId _ => !hasId

/-- A Discord sink whose construction-time create attempt failed: the
`_message_id` attribute is unset and `text` still holds the class name. -/
def dUnset : DiscordSink :=
  { token := "t", channel_id := "c", text := "DiscordIO", message_id := none }

/-- A Discord sink with an established message identifier, with `text`
still holding the initial class-name content. -/
def dEst : DiscordSink :=
  { token := "t", channel_id := "c", text := "DiscordIO", message_id := some "m" }

/-- A Telegram sink with an established message identifier. -/
def tEst : TelegramSink :=
  { token := "t", chat_id := "c", text := "TelegramIO", message_id := some 7 }

/-- A Telegram sink whose construction-time create attempt failed with a
swallowed exception: `message_id` was never assigned. -/
def tUnset : TelegramSink :=
  { token := "t", chat_id := "c", text := "TelegramIO", message_id := none }

/-- Two successive `write` calls on a Discord sink, threading the sink
state from the first into the second; yields the final sink and the
concatenated network calls of both invocations. -/
def DiscordSink.write2 (io : DiscordSink) (t1 t2 : Option String)
    (co : DCreateRes) (so : SubmitRes) : Option (DiscordSink × List NetCall) :=
  match DiscordSink.write io t1 co so with
  | .error _ => none
  | .ok r1 =>
    match DiscordSink.write r1.io t2 co so with
    | .error _ => none
    | .ok r2 => some (r2.io, r1.calls ++ r2.calls)

/-- Reachability invariant of the dispatcher: the backlog is bounded by 2
and strictly ordered by submission index with ids below `nextId`, a
cancelled task never started, the worker queue is FIFO-ordered, started
tasks are in submission order and precede everything still queued. -/
structure WInv (w : MonoWorker) : Prop where
  blen : w.backlog.length ≤ 2
  bSorted : w.backlog.Pairwise (· < ·)
  bBound : ∀ b ∈ w.backlog, b < w.nextId
  cns : ∀ x ∈ w.cancelled, x ∉ w.started
  qSorted : w.queue.Pairwise (· < ·)
  sSorted : w.started.Pairwise (· < ·)
  sq : ∀ s ∈ w.started, ∀ q ∈ w.queue, s < q
  qBound : ∀ q ∈ w.queue, q < w.nextId
  sBound : ∀ s ∈ w.started, s < w.nextId

/-! ### Helper lemmas about the normalisation -/

lemma head?_dropWhile_false {α : Type} (p : α → Bool) (l : List α) :
    ∀ c ∈ (l.dropWhile p).head?, p c = false := by
  induction l with
  | nil => simp [List.dropWhile]
  | cons a l ih =>
    by_cases h : p a
    · simpa [List.dropWhile_cons, h] using ih
    · simp [List.dropWhile_cons, h]

lemma getLast?_dropWhile {α : Type} (p : α → Bool) (l : List α)
    (h : l.dropWhile p ≠ []) : (l.dropWhile p).getLast? = l.getLast? := by
  induction l with
  | nil => simp [List.dropWhile] at h
  | cons a l ih =>
    by_cases hpa : p a
    · rw [List.dropWhile_cons_of_pos hpa] at h ⊢
      have hl : l ≠ [] := by
        intro he
        subst he
        simp [List.dropWhile] at h
      obtain ⟨b, l', rfl⟩ := List.exists_cons_of_ne_nil hl
      rw [ih h, List.getLast?_cons_cons]
    · rw [List.dropWhile_cons_of_neg hpa]

lemma mem_pyStrip {c : Char} {s : String} (h : c ∈ (pyStrip s).data) :
    c ∈ s.data := by
  unfold pyStrip at h
  rw [List.mem_reverse] at h
  have h1 := (List.dropWhile_sublist isPySpace).subset h
  rw [List.mem_reverse] at h1
  exact (List.dropWhile_sublist isPySpace).subset h1

lemma cr_not_mem_normalize (s? : Option String) :
    '\r' ∉ (normalize s?).data := by
  intro h
  have h1 := mem_pyStrip h
  unfold removeCR at h1
  rw [List.mem_filter] at h1
  simp at h1

lemma normalize_head_not_space (s? : Option String) :
    ∀ c ∈ (normalize s?).data.head?, isPySpace c = false := by
  intro c hc
  unfold normalize pyStrip at hc
  rw [List.head?_reverse] at hc
  set A := (removeCR (if pyFalsy s? then "..." else s?.getD "")).data with hA
  by_cases h : (A.dropWhile isPySpace).reverse.dropWhile isPySpace = []
  · rw [h] at hc
    simp at hc
  · rw [getLast?_dropWhile _ _ h, List.getLast?_reverse] at hc
    exact head?_dropWhile_false isPySpace A c hc

lemma normalize_getLast_not_space (s? : Option String) :
    ∀ c ∈ (normalize s?).data.getLast?, isPySpace c = false := by
  intro c hc
  unfold normalize pyStrip at hc
  rw [List.getLast?_reverse] at hc
  exact head?_dropWhile_false isPySpace _ c hc

/-! ### C4 -/

/-- C4: both sinks' `write` normalises its input before the dedup check
and before sending — falsy input (`None` or `""`) becomes the placeholder
`"..."`, every carriage return is removed, and leading/trailing
whitespace is trimmed — so `update("")` and `update(None)` normalise to
the same placeholder and behave identically on both sinks. -/
theorem C4_write_normalization :
    normalize (some "") = "..."
    ∧ normalize none = "..."
    ∧ (∀ s?, pyFalsy s? = true → normalize s? = "...")
    ∧ (∀ s?, '\r' ∉ (normalize s?).data)
    ∧ (∀ s?, ∀ c ∈ (normalize s?).data.head?, isPySpace c = false)
    ∧ (∀ s?, ∀ c ∈ (normalize s?).data.getLast?, isPySpace c = false)
    ∧ (∀ (io : DiscordSink) (co : DCreateRes) (so : SubmitRes),
        DiscordSink.write io (some "") co so = DiscordSink.write io none co so)
    ∧ (∀ (io : TelegramSink) (so : SubmitRes),
        TelegramSink.write io (some "") so = TelegramSink.write io none so) := by
  refine ⟨by decide, by decide, ?_, cr_not_mem_normalize, normalize_head_not_space,
    normalize_getLast_not_space, ?_, ?_⟩
  · intro s? h
    match s? with
    | none => decide
    | some s =>
      have hs : s = "" := by simpa [pyFalsy] using h
      subst hs
      decide
  · intro io co so
    have h : normalize (some "") = normalize none := by decide
    unfold DiscordSink.write
    rw [h]
  · intro io so
    have h : normalize (some "") = normalize none := by decide
    unfold TelegramSink.write
    rw [h]

/-- Closed instance of C4: the hypothesis-bearing conjunct applied at the
concrete falsy input `some ""`. -/
theorem C4_write_normalization_witness :
    pyFalsy (some "") = true ∧ normalize (some "") = "..." :=
  ⟨by decide, C4_write_normalization.2.2.1 (some "") (by decide)⟩

/-! ### C5 -/

/-- C5: `close` on a disabled meter does nothing at all; otherwise it runs
the base close logic first and then calls the sink's `delete` exactly
when not (leave is true, or leave is unset and the position is 0). -/
theorem C5_close_policy (disable : Bool) (leave : Option Bool) (pos : Int) :
    (disable = true → tqdmMirrorClose disable leave pos = [])
    ∧ (disable = false →
        (tqdmMirrorClose disable leave pos).head? = some CloseAct.baseClose
        ∧ (CloseAct.sinkDelete ∈ tqdmMirrorClose disable leave pos ↔
            ¬(leave = some true ∨ (leave = none ∧ pos = 0)))) := by
  constructor
  · intro h
    subst h
    simp [tqdmMirrorClose]
  · intro h
    subst h
    constructor
    · rcases leave with _ | b
      · by_cases hp : pos = 0 <;> simp [tqdmMirrorClose, leaveTruthy, hp]
      · cases b <;> by_cases hp : pos = 0 <;>
          simp [tqdmMirrorClose, leaveTruthy, hp]
    · rcases leave with _ | b
      · by_cases hp : pos = 0 <;> simp [tqdmMirrorClose, leaveTruthy, hp]
      · cases b <;> by_cases hp : pos = 0 <;>
          simp [tqdmMirrorClose, leaveTruthy, hp]

/-- Closed instance of C5: a disabled meter's close takes no action; an
enabled meter with `leave=False` runs base close then deletes. -/
theorem C5_close_policy_witness :
    tqdmMirrorClose true none 0 = []
    ∧ (tqdmMirrorClose false (some false) 0).head? = some CloseAct.baseClose :=
  ⟨(C5_close_policy true none 0).1 rfl, ((C5_close_policy false (some false) 0).2 rfl).1⟩

/-! ### C6 -/

/-- C6: a sink is constructed if and only if the `disable` keyword is
falsy at meter construction time; a disabled meter allocates no network
resource (no request is issued), while an enabled one issues the create
request at construction. -/
theorem C6_sink_iff_enabled (disable : Option Bool) (token dest : String)
    (dOracle : DCreateRes) (tOracle : TgCreateRes) :
    ((tqdm_discord_init disable token dest dOracle).1.isSome = !disableTruthy disable)
    ∧ (disableTruthy disable = true →
        tqdm_discord_init disable token dest dOracle = (none, [], [])
        ∧ tqdm_telegram_init disable token dest tOracle = (.ok none, [], []))
    ∧ (disableTruthy disable = false →
        (tqdm_discord_init disable token dest dOracle).2.1 ≠ []
        ∧ (tqdm_telegram_init disable token dest tOracle).2.1 ≠ []
        ∧ ∀ io?, (tqdm_telegram_init disable token dest tOracle).1 = .ok io? →
            io?.isSome = true) := by
  refine ⟨?_, ?_, ?_⟩
  · by_cases h : disableTruthy disable
    · simp [tqdm_discord_init, h]
    · simp only [Bool.not_eq_true] at h
      rcases hd : DiscordSink.init token dest dOracle with ⟨io, cs, ls⟩
      simp [tqdm_discord_init, h, hd]
  · intro h
    constructor
    · simp [tqdm_discord_init, h]
    · simp [tqdm_telegram_init, h]
  · intro h
    refine ⟨?_, ?_, ?_⟩
    · rcases dOracle with e | ⟨hasId, mid⟩
      · simp [tqdm_discord_init, h, DiscordSink.init, DiscordSink.messageIdProp]
      · cases hasId <;>
          simp [tqdm_discord_init, h, DiscordSink.init, DiscordSink.messageIdProp]
    · rcases tOracle with e | ⟨ec, res⟩
      · simp [tqdm_telegram_init, h, TelegramSink.init]
      · rcases res with _ | mid <;>
          simp [tqdm_telegram_init, h, TelegramSink.init]
    · intro io? hio
      rcases tOracle with e | ⟨ec, res⟩
      · simp [tqdm_telegram_init, h, TelegramSink.init] at hio
        simp [← hio]
      · rcases res with _ | mid <;>
          · simp [tqdm_telegram_init, h, TelegramSink.init] at hio
            try simp [← hio]

/-- Closed instance of C6: `disable=True` yields no sink and no request;
an absent `disable` yields a Discord sink. -/
theorem C6_sink_iff_enabled_witness :
    tqdm_discord_init (some true) "t" "c" (.exn .requestError) = (none, [], [])
    ∧ (tqdm_discord_init none "t" "c" (.exn .requestError)).1.isSome = true :=
  ⟨((C6_sink_iff_enabled (some true) "t" "c" (.exn .requestError)
      (.exn .requestError)).2.1 rfl).1,
   (C6_sink_iff_enabled none "t" "c" (.exn .requestError) (.exn .requestError)).1⟩

/-! ### C7 -/

/-- C7: for every sink state, input and backend behaviour, `write` and
`delete` catch any exception raised while building or submitting the
request, log it to the local display stream, and never propagate an
exception to the caller. -/
theorem C7_no_exception_escapes (dio : DiscordSink) (tio : TelegramSink)
    (s? : Option String) (co : DCreateRes) (so : SubmitRes) :
    (DiscordSink.write dio s? co so).isOk = true
    ∧ (DiscordSink.delete dio co so).isOk = true
    ∧ (TelegramSink.write tio s? so).isOk = true
    ∧ (TelegramSink.delete tio so).isOk = true
    ∧ (∀ e r, so = .exn e → DiscordSink.delete dio co so = .ok r →
        LocalOut.displayWrite e ∈ r.out)
    ∧ (∀ e r, so = .exn e → tio.message_id.isSome = true →
        TelegramSink.delete tio so = .ok r → LocalOut.displayWrite e ∈ r.out) := by
  rcases hm : dio.messageIdProp co with ⟨io1, mid?, cs, ls⟩
  refine ⟨?_, ?_, ?_, ?_, ?_, ?_⟩
  · unfold DiscordSink.write
    by_cases h : normalize s? = dio.text <;>
      cases mid? <;> cases so <;> simp [h, hm, Except.isOk, Except.toBool]
  · unfold DiscordSink.delete
    cases so <;> simp [hm, Except.isOk, Except.toBool]
  · unfold TelegramSink.write
    by_cases h : normalize s? = tio.text <;>
      rcases htm : tio.message_id with _ | mid <;> cases so <;>
        simp [h, htm, Except.isOk, Except.toBool]
  · unfold TelegramSink.delete
    rcases htm : tio.message_id with _ | mid <;> cases so <;>
      simp [htm, Except.isOk, Except.toBool]
  · intro e r hso hr
    subst hso
    unfold DiscordSink.delete at hr
    simp [hm] at hr
    simp [← hr]
  · intro e r hso htm hr
    subst hso
    rcases hmid : tio.message_id with _ | mid
    · simp [hmid] at htm
    · unfold TelegramSink.delete at hr
      simp [hmid] at hr
      simp [← hr]

/-- Closed instance of C7: a Telegram delete whose submission raises still
returns normally and logs the error. -/
theorem C7_no_exception_escapes_witness :
    (TelegramSink.delete
      { token := "t", chat_id := "c", text := "TelegramIO", message_id := some 7 }
      (.exn .submitError)).isOk = true :=
  (C7_no_exception_escapes
    { token := "t", channel_id := "c", text := "DiscordIO", message_id := none }
    { token := "t", chat_id := "c", text := "TelegramIO", message_id := some 7 }
    none (.exn .requestError) (.exn .submitError)).2.2.2.1

/-! ### C9 -/

/-- C9: evaluating the Telegram constructor on a rate-limit response that
carries no `result` field — the code issues the warning but then raises
an uncaught `KeyError` out of the constructor instead of continuing to
operate, contradicting the stated containment. -/
theorem C9_rate_limit_crash :
    TelegramSink.init "tok" "chat" (.resp (some 429) none)
      = (.error .keyError, [NetCall.tgSendMessage "chat" "`TelegramIO`"],
         [.warn429]) := by
  rfl

/-! ### C1, C2, C3: sink lifecycle and deduplication -/

lemma messageIdProp_some (io : DiscordSink) (mid : String)
    (h : io.message_id = some mid) (co : DCreateRes) :
    io.messageIdProp co = (io, some mid, [], []) := by
  unfold DiscordSink.messageIdProp
  rw [h]

lemma messageIdProp_none_noId (io : DiscordSink) (h : io.message_id = none)
    (co : DCreateRes) (hco : co.noId = true) :
    (io.messageIdProp co).1 = io
    ∧ (io.messageIdProp co).2.1 = none
    ∧ (io.messageIdProp co).2.2.1
        = [NetCall.discordCreate io.channel_id ("`" ++ io.text ++ "`")] := by
  rcases co with e | ⟨hasId, mid⟩
  · simp [DiscordSink.messageIdProp, h]
  · have hh : hasId = false := by simpa [DCreateRes.noId] using hco
    subst hh
    simp [DiscordSink.messageIdProp, h]

/-- C1 is false on the code as stated for "every sink": a Discord sink
whose construction-time create failed makes a network call (a fresh
create attempt) on a subsequent `write`, and two calls (the create
re-attempt plus a DELETE for the literal id `None`) on `delete`. -/
theorem C1_failed_create_cex :
    DiscordSink.write dUnset (some "50%") (.exn .requestError) .ok
      = .ok { io := dUnset, calls := [NetCall.discordCreate "c" "`DiscordIO`"],
              out := [.displayWrite .requestError], future := none }
    ∧ DiscordSink.delete dUnset (.exn .requestError) .ok
      = .ok { io := dUnset,
              calls := [NetCall.discordCreate "c" "`DiscordIO`",
                        NetCall.discordDelete "c" "None"],
              out := [.displayWrite .requestError], future := some () }
    ∧ ([NetCall.discordCreate "c" "`DiscordIO`"] : List NetCall) ≠ [] :=
  ⟨rfl, rfl, by decide⟩

/-- C1 amended: a Telegram sink whose create attempt failed to establish
an identifier makes zero network calls and raises nothing on every
subsequent `write`/`delete`; a Discord sink in that state likewise never
raises and never submits an edit while creation keeps failing, but each
non-deduplicated `write` re-attempts the create request and each
`delete` additionally submits a deletion for the literal id `None`. -/
theorem C1_failed_create (tio : TelegramSink) (ht : tio.message_id = none)
    (dio : DiscordSink) (hd : dio.message_id = none)
    (s? : Option String) (co : DCreateRes) (hco : co.noId = true)
    (so : SubmitRes) :
    (∀ r, TelegramSink.write tio s? so = .ok r →
        r.calls = [] ∧ r.io.message_id = none)
    ∧ (TelegramSink.write tio s? so).isOk = true
    ∧ (∀ r, TelegramSink.delete tio so = .ok r →
        r.calls = [] ∧ r.io.message_id = none)
    ∧ (TelegramSink.delete tio so).isOk = true
    ∧ (∀ r, DiscordSink.write dio s? co so = .ok r →
        (r.calls = []
         ∨ r.calls = [NetCall.discordCreate dio.channel_id ("`" ++ dio.text ++ "`")])
        ∧ r.io.message_id = none)
    ∧ (DiscordSink.write dio s? co so).isOk = true
    ∧ (∀ r, DiscordSink.delete dio co so = .ok r →
        r.calls = [NetCall.discordCreate dio.channel_id ("`" ++ dio.text ++ "`")]
        ∨ r.calls = [NetCall.discordCreate dio.channel_id ("`" ++ dio.text ++ "`"),
                     NetCall.discordDelete dio.channel_id "None"])
    ∧ (DiscordSink.delete dio co so).isOk = true := by
  have hfalse : ∀ hasId mid, co = .resp hasId mid → hasId = false := by
    intro hasId mid hc
    subst hc
    simpa [DCreateRes.noId] using hco
  refine ⟨?_, ?_, ?_, ?_, ?_, ?_, ?_, ?_⟩
  · intro r hr
    unfold TelegramSink.write at hr
    by_cases h : normalize s? = tio.text <;> simp [h, ht] at hr <;> subst hr <;>
      simp [ht]
  · unfold TelegramSink.write
    by_cases h : normalize s? = tio.text <;> simp [h, ht, Except.isOk, Except.toBool]
  · intro r hr
    unfold TelegramSink.delete at hr
    simp [ht] at hr
    subst hr
    simp [ht]
  · unfold TelegramSink.delete
    simp [ht, Except.isOk, Except.toBool]
  · intro r hr
    unfold DiscordSink.write at hr
    rcases co with e | ⟨hasId, mid⟩
    · by_cases h : normalize s? = dio.text <;>
        simp [h, hd, DiscordSink.messageIdProp] at hr <;> subst hr <;> simp [hd]
    · have hh := hfalse hasId mid rfl
      subst hh
      by_cases h : normalize s? = dio.text <;>
        simp [h, hd, DiscordSink.messageIdProp] at hr <;> subst hr <;> simp [hd]
  · unfold DiscordSink.write
    rcases co with e | ⟨hasId, mid⟩
    · by_cases h : normalize s? = dio.text <;>
        simp [h, hd, DiscordSink.messageIdProp, Except.isOk, Except.toBool]
    · have hh := hfalse hasId mid rfl
      subst hh
      by_cases h : normalize s? = dio.text <;>
        simp [h, hd, DiscordSink.messageIdProp, Except.isOk, Except.toBool]
  · intro r hr
    unfold DiscordSink.delete at hr
    rcases co with e | ⟨hasId, mid⟩
    · cases so <;> simp [hd, DiscordSink.messageIdProp, pyStr] at hr <;>
        subst hr <;> simp
    · have hh := hfalse hasId mid rfl
      subst hh
      cases so <;> simp [hd, DiscordSink.messageIdProp, pyStr] at hr <;>
        subst hr <;> simp
  · unfold DiscordSink.delete
    rcases co with e | ⟨hasId, mid⟩
    · cases so <;> simp [hd, DiscordSink.messageIdProp, Except.isOk, Except.toBool]
    · have hh := hfalse hasId mid rfl
      subst hh
      cases so <;> simp [hd, DiscordSink.messageIdProp, Except.isOk, Except.toBool]

/-- Closed instance of the amended C1: a failed-create Telegram sink's
`write` returns normally. -/
theorem C1_failed_create_witness :
    (TelegramSink.write tUnset (some "x") .ok).isOk = true :=
  (C1_failed_create tUnset rfl dUnset rfl (some "x") (.exn .requestError)
    (by decide) .ok).2.1

/-- C2 is false on the code: after a failed construction-time create, a
later Discord `write` issues another create request and records the
identifier it returns — so create is not attempted at most once and the
identifier is not set only by the constructor. -/
theorem C2_create_once_cex :
    DiscordSink.write dUnset (some "x") (.resp true "99") .ok
      = .ok { io := { token := "t", channel_id := "c", text := "x",
                      message_id := some "99" },
              calls := [NetCall.discordCreate "c" "`DiscordIO`",
                        NetCall.discordPatch "c" "99" "`x`"],
              out := [], future := some () }
    ∧ (NetCall.discordCreate "c" "`DiscordIO`").isCreate = true :=
  ⟨rfl, rfl⟩

/-- C2 amended: once an identifier is recorded it never changes and no
later `write`/`delete` issues a create request; the Telegram identifier
is only ever set by the constructor's create attempt (`write`/`delete`
never alter it and never issue a create request), while a Discord
`write`/`delete` re-attempts the create request whenever the identifier
is still unset. -/
theorem C2_identifier_stability (dio : DiscordSink) (mid : String)
    (hd : dio.message_id = some mid) (tio : TelegramSink)
    (s? : Option String) (co : DCreateRes) (so : SubmitRes) :
    (∀ r, DiscordSink.write dio s? co so = .ok r →
        r.io.message_id = some mid ∧ ∀ c ∈ r.calls, c.isCreate = false)
    ∧ (∀ r, DiscordSink.delete dio co so = .ok r →
        r.io.message_id = some mid ∧ ∀ c ∈ r.calls, c.isCreate = false)
    ∧ (∀ r, TelegramSink.write tio s? so = .ok r →
        r.io.message_id = tio.message_id ∧ ∀ c ∈ r.calls, c.isCreate = false)
    ∧ (∀ r, TelegramSink.delete tio so = .ok r →
        r.io.message_id = tio.message_id ∧ ∀ c ∈ r.calls, c.isCreate = false) := by
  have hmp := messageIdProp_some dio mid hd co
  refine ⟨?_, ?_, ?_, ?_⟩
  · intro r hr
    unfold DiscordSink.write at hr
    by_cases h : normalize s? = dio.text <;> cases so <;> simp [h, hmp] at hr <;>
      subst hr <;> simp [hd, NetCall.isCreate]
  · intro r hr
    unfold DiscordSink.delete at hr
    cases so <;> simp [hmp] at hr <;> subst hr <;> simp [hd, NetCall.isCreate]
  · intro r hr
    unfold TelegramSink.write at hr
    by_cases h : normalize s? = tio.text <;>
      rcases htm : tio.message_id with _ | tmid <;> cases so <;>
        simp [h, htm] at hr <;> subst hr <;> simp [htm, NetCall.isCreate]
  · intro r hr
    unfold TelegramSink.delete at hr
    rcases htm : tio.message_id with _ | tmid <;> cases so <;>
      simp [htm] at hr <;> subst hr <;> simp [htm, NetCall.isCreate]

/-- Closed instance of the amended C2: a Discord `write` on a sink with a
recorded identifier leaves the identifier unchanged. -/
theorem C2_identifier_stability_witness :
    ({ token := "t", channel_id := "c", text := "x", message_id := some "m" }
      : DiscordSink).message_id = some "m" :=
  ((C2_identifier_stability dEst "m" rfl tEst (some "x") (.exn .requestError) .ok).1
    { io := { token := "t", channel_id := "c", text := "x", message_id := some "m" },
      calls := [NetCall.discordPatch "c" "m" "`x`"], out := [], future := some () }
    rfl).1

/-- C3 is false on the code as stated for "every text": two successive
`write` calls whose input normalises to the content already recorded as
last sent make zero network submissions, not exactly one. -/
theorem C3_dedup_cex :
    DiscordSink.write2 dEst (some "DiscordIO") (some "DiscordIO")
        (.exn .requestError) .ok
      = some (dEst, [])
    ∧ (DiscordSink.write2 dEst (some "DiscordIO") (some "DiscordIO")
        (.exn .requestError) .ok).map (fun p => p.2.length) ≠ some 1 :=
  ⟨rfl, by decide⟩

/-- C3 amended: on a sink with an established identifier, two successive
`write` calls with inputs normalising to the same content make at most
one network submission — exactly one iff the normalised text differs
from the last content sent — and the second call always returns before
any network call. -/
theorem C3_dedup_once (dio : DiscordSink) (mid : String)
    (hd : dio.message_id = some mid) (tio : TelegramSink) (tmid : Nat)
    (ht : tio.message_id = some tmid) (t1 t2 : Option String)
    (hn : normalize t1 = normalize t2) (co : DCreateRes) :
    (∀ r1, DiscordSink.write dio t1 co .ok = .ok r1 →
        ∀ r2, DiscordSink.write r1.io t2 co .ok = .ok r2 →
          r2.calls = []
          ∧ (r1.calls ++ r2.calls).length ≤ 1
          ∧ ((r1.calls ++ r2.calls).length = 1 ↔ ¬normalize t1 = dio.text))
    ∧ (∀ r1, TelegramSink.write tio t1 .ok = .ok r1 →
        ∀ r2, TelegramSink.write r1.io t2 .ok = .ok r2 →
          r2.calls = []
          ∧ (r1.calls ++ r2.calls).length ≤ 1
          ∧ ((r1.calls ++ r2.calls).length = 1 ↔ ¬normalize t1 = tio.text)) := by
  constructor
  · intro r1 hr1 r2 hr2
    by_cases h1 : normalize t1 = dio.text
    · unfold DiscordSink.write at hr1
      simp [h1] at hr1
      subst hr1
      unfold DiscordSink.write at hr2
      have h2 : normalize t2 = dio.text := hn ▸ h1
      simp [h2] at hr2
      subst hr2
      simp [h1]
    · unfold DiscordSink.write at hr1
      simp [h1, messageIdProp_some dio mid hd co] at hr1
      subst hr1
      unfold DiscordSink.write at hr2
      have h2 : normalize t2 = normalize t1 := hn.symm
      simp [h2] at hr2
      subst hr2
      simp [h1]
  · intro r1 hr1 r2 hr2
    by_cases h1 : normalize t1 = tio.text
    · unfold TelegramSink.write at hr1
      simp [h1] at hr1
      subst hr1
      unfold TelegramSink.write at hr2
      have h2 : normalize t2 = tio.text := hn ▸ h1
      simp [h2] at hr2
      subst hr2
      simp [h1]
    · unfold TelegramSink.write at hr1
      simp [h1, ht] at hr1
      subst hr1
      unfold TelegramSink.write at hr2
      have h2 : normalize t2 = normalize t1 := hn.symm
      simp [h2] at hr2
      subst hr2
      simp [h1]

/-- Closed instance of the amended C3: after a first `write` that
submitted an edit, the deduplicated second call makes no network call. -/
theorem C3_dedup_once_witness :
    ({ io := { token := "t", channel_id := "c", text := "x", message_id := some "m" },
       calls := [], out := [], future := none } : SinkOut DiscordSink).calls = [] :=
  (((C3_dedup_once dEst "m" rfl tEst 7 rfl (some "x") (some "x") rfl
      (.exn .requestError)).1
    { io := { token := "t", channel_id := "c", text := "x", message_id := some "m" },
      calls := [NetCall.discordPatch "c" "m" "`x`"], out := [], future := some () }
    rfl
    { io := { token := "t", channel_id := "c", text := "x", message_id := some "m" },
      calls := [], out := [], future := none }
    rfl)).1
/-! ### C8: dispatcher lemmas -/

lemma submit_small {w : MonoWorker} (hlen : ¬2 < w.backlog.length + 1) :
    w.submit = { w with
      nextId := w.nextId + 1
      queue := w.queue ++ [w.nextId]
      backlog := w.backlog ++ [w.nextId] } := by
  unfold MonoWorker.submit
  rw [if_neg (by simpa using hlen)]

lemma submit_full {w : MonoWorker} {o : Nat} {rest : List Nat}
    (hb : w.backlog = o :: rest) (hlen : 2 < w.backlog.length + 1) :
    w.submit = { nextId := w.nextId + 1
                 queue := w.queue ++ [w.nextId]
                 backlog := rest ++ [w.nextId]
                 cancelled := if o ∈ w.started then w.cancelled
                              else o :: w.cancelled
                 started := w.started } := by
  unfold MonoWorker.submit
  rw [hb]
  rw [if_pos (by simp [hb] at hlen ⊢; omega)]
  rfl

lemma runStep_nil {w : MonoWorker} (hq : w.queue = []) : w.runStep = w := by
  unfold MonoWorker.runStep
  simp only [hq]

lemma runStep_skip {w : MonoWorker} {t : Nat} {q' : List Nat}
    (hq : w.queue = t :: q') (ht : t ∈ w.cancelled) :
    w.runStep = { w with queue := q' } := by
  unfold MonoWorker.runStep
  simp only [hq]
  rw [if_pos ht]

lemma runStep_start {w : MonoWorker} {t : Nat} {q' : List Nat}
    (hq : w.queue = t :: q') (ht : t ∉ w.cancelled) :
    w.runStep = { w with queue := q', started := w.started ++ [t] } := by
  unfold MonoWorker.runStep
  simp only [hq]
  rw [if_neg ht]

lemma winv_submit {w : MonoWorker} (hw : WInv w) : WInv w.submit := by
  obtain ⟨blen, bSorted, bBound, cns, qSorted, sSorted, sq, qBound, sBound⟩ := hw
  by_cases hlen : 2 < w.backlog.length + 1
  · rcases hb : w.backlog with _ | ⟨o, rest⟩
    · rw [hb] at hlen
      simp at hlen
    · rw [submit_full hb hlen]
      rw [hb] at blen bSorted bBound
      refine ⟨?_, ?_, ?_, ?_, ?_, ?_, ?_, ?_, ?_⟩ <;> dsimp only
      · simp at blen ⊢
        omega
      · rw [List.pairwise_append]
        refine ⟨bSorted.of_cons, List.pairwise_singleton _ _, ?_⟩
        intro a ha b hbm
        simp at hbm
        subst hbm
        exact bBound a (by simp [ha])
      · intro b hbm
        rcases List.mem_append.mp hbm with hbm | hbm
        · exact Nat.lt_succ_of_lt (bBound b (by simp [hbm]))
        · simp at hbm
          omega
      · by_cases ho : o ∈ w.started
        · simpa [ho] using cns
        · simp only [if_neg ho]
          intro x hx
          rcases List.mem_cons.mp hx with hx | hx
          · subst hx
            exact ho
          · exact cns x hx
      · rw [List.pairwise_append]
        refine ⟨qSorted, List.pairwise_singleton _ _, ?_⟩
        intro a ha b hbm
        simp at hbm
        subst hbm
        exact qBound a ha
      · exact sSorted
      · intro s hs q hq
        rcases List.mem_append.mp hq with hq | hq
        · exact sq s hs q hq
        · simp at hq
          subst hq
          exact sBound s hs
      · intro q hq
        rcases List.mem_append.mp hq with hq | hq
        · exact Nat.lt_succ_of_lt (qBound q hq)
        · simp at hq
          omega
      · intro s hs
        exact Nat.lt_succ_of_lt (sBound s hs)
  · rw [submit_small hlen]
    refine ⟨?_, ?_, ?_, ?_, ?_, ?_, ?_, ?_, ?_⟩ <;> dsimp only
    · simp at hlen ⊢
      omega
    · rw [List.pairwise_append]
      refine ⟨bSorted, List.pairwise_singleton _ _, ?_⟩
      intro a ha b hbm
      simp at hbm
      subst hbm
      exact bBound a ha
    · intro b hbm
      rcases List.mem_append.mp hbm with hbm | hbm
      · exact Nat.lt_succ_of_lt (bBound b hbm)
      · simp at hbm
        omega
    · exact cns
    · rw [List.pairwise_append]
      refine ⟨qSorted, List.pairwise_singleton _ _, ?_⟩
      intro a ha b hbm
      simp at hbm
      subst hbm
      exact qBound a ha
    · exact sSorted
    · intro s hs q hq
      rcases List.mem_append.mp hq with hq | hq
      · exact sq s hs q hq
      · simp at hq
        subst hq
        exact sBound s hs
    · intro q hq
      rcases List.mem_append.mp hq with hq | hq
      · exact Nat.lt_succ_of_lt (qBound q hq)
      · simp at hq
        omega
    · intro s hs
      exact Nat.lt_succ_of_lt (sBound s hs)

lemma winv_runStep {w : MonoWorker} (hw : WInv w) : WInv w.runStep := by
  obtain ⟨blen, bSorted, bBound, cns, qSorted, sSorted, sq, qBound, sBound⟩ := hw
  rcases hq : w.queue with _ | ⟨t, q'⟩
  · rw [runStep_nil hq]
    exact ⟨blen, bSorted, bBound, cns, qSorted, sSorted, sq, qBound, sBound⟩
  · rw [hq] at qSorted sq qBound
    have htq : ∀ a ∈ q', t < a := (List.pairwise_cons.mp qSorted).1
    by_cases ht : t ∈ w.cancelled
    · rw [runStep_skip hq ht]
      refine ⟨blen, bSorted, bBound, cns, qSorted.of_cons, sSorted, ?_, ?_, sBound⟩
      · intro s hs q hqm
        exact sq s hs q (by simp [hqm])
      · intro q hqm
        exact qBound q (by simp [hqm])
    · rw [runStep_start hq ht]
      refine ⟨blen, bSorted, bBound, ?_, qSorted.of_cons, ?_, ?_, ?_, ?_⟩ <;>
        dsimp only
      · intro x hx hmem
        rcases List.mem_append.mp hmem with hm | hm
        · exact cns x hx hm
        · simp at hm
          subst hm
          exact ht hx
      · rw [List.pairwise_append]
        refine ⟨sSorted, List.pairwise_singleton _ _, ?_⟩
        intro a ha b hbm
        simp at hbm
        rw [hbm]
        exact sq a ha t (by simp)
      · intro s hs q hqm
        rcases List.mem_append.mp hs with hm | hm
        · exact sq s hm q (by simp [hqm])
        · simp at hm
          subst hm
          exact htq q hqm
      · intro q hqm
        exact qBound q (by simp [hqm])
      · intro s hs
        rcases List.mem_append.mp hs with hm | hm
        · exact sBound s hm
        · simp at hm
          rw [hm]
          exact qBound t (by simp)

lemma winv_applyEvent {w : MonoWorker} (e : DEvent) (hw : WInv w) :
    WInv (w.applyEvent e) := by
  cases e
  · exact winv_submit hw
  · exact winv_runStep hw

lemma winv_foldl {w : MonoWorker} (hw : WInv w) (evs : List DEvent) :
    WInv (evs.foldl MonoWorker.applyEvent w) := by
  induction evs generalizing w with
  | nil => exact hw
  | cons e evs ih => exact ih (winv_applyEvent e hw)

lemma winv_init : WInv MonoWorker.initState := by
  refine ⟨?_, ?_, ?_, ?_, ?_, ?_, ?_, ?_, ?_⟩ <;> simp [MonoWorker.initState]

lemma winv_run (evs : List DEvent) : WInv (MonoWorker.run evs) :=
  winv_foldl winv_init evs

lemma cancelled_mono_applyEvent {w : MonoWorker} {x : Nat} (e : DEvent)
    (hx : x ∈ w.cancelled) : x ∈ (w.applyEvent e).cancelled := by
  cases e
  · show x ∈ w.submit.cancelled
    by_cases hlen : 2 < w.backlog.length + 1
    · rcases hb : w.backlog with _ | ⟨o, rest⟩
      · rw [hb] at hlen
        simp at hlen
      · rw [submit_full hb hlen]
        by_cases ho : o ∈ w.started <;> simp [ho, hx]
    · rw [submit_small hlen]
      exact hx
  · show x ∈ w.runStep.cancelled
    rcases hq : w.queue with _ | ⟨t, q'⟩
    · rw [runStep_nil hq]
      exact hx
    · by_cases ht : t ∈ w.cancelled
      · rw [runStep_skip hq ht]
        exact hx
      · rw [runStep_start hq ht]
        exact hx

lemma cancelled_mono_foldl {w : MonoWorker} {x : Nat} (evs : List DEvent)
    (hx : x ∈ w.cancelled) :
    x ∈ (evs.foldl MonoWorker.applyEvent w).cancelled := by
  induction evs generalizing w with
  | nil => exact hx
  | cons e evs ih => exact ih (cancelled_mono_applyEvent e hx)

/-- C8: along every event sequence the dispatcher's backlog holds at most
2 handles, a cancelled task's callable never executes, tasks that start
do so in submission (FIFO) order, and a submission arriving with the
backlog at capacity evicts the oldest handle — which, if it has not
started, is cancelled and never executes thereafter. -/
theorem C8_dispatcher_bound (evs : List DEvent) :
    (MonoWorker.run evs).backlog.length ≤ 2
    ∧ (∀ x ∈ (MonoWorker.run evs).cancelled, x ∉ (MonoWorker.run evs).started)
    ∧ (MonoWorker.run evs).started.Pairwise (· < ·)
    ∧ (∀ o, (MonoWorker.run evs).backlog.length = 2 →
        (MonoWorker.run evs).backlog.head? = some o →
        (MonoWorker.run evs).submit.backlog
            = (MonoWorker.run evs).backlog.tail ++ [(MonoWorker.run evs).nextId]
        ∧ o ∉ (MonoWorker.run evs).submit.backlog
        ∧ (o ∉ (MonoWorker.run evs).started →
            ∀ evs2, o ∉ (MonoWorker.run (evs ++ DEvent.submit :: evs2)).started)) := by
  have hw := winv_run evs
  refine ⟨hw.blen, hw.cns, hw.sSorted, ?_⟩
  intro o hlen ho
  set w := MonoWorker.run evs with hwdef
  rcases hb : w.backlog with _ | ⟨o', rest⟩
  · rw [hb] at ho
    simp at ho
  · rw [hb] at ho hlen
    simp at ho
    subst ho
    have hlen' : 2 < w.backlog.length + 1 := by
      rw [hb]
      simp at hlen ⊢
      omega
    have hs := submit_full hb hlen'
    have hos : ∀ a ∈ rest, o' < a := (List.pairwise_cons.mp (hb ▸ hw.bSorted)).1
    have hon : o' < w.nextId := hw.bBound o' (by rw [hb]; simp)
    refine ⟨?_, ?_, ?_⟩
    · rw [hs]
      rfl
    · rw [hs]
      dsimp only
      simp only [List.mem_append, List.mem_singleton]
      intro hcon
      rcases hcon with hcon | hcon
      · exact absurd rfl (Nat.ne_of_lt (hos o' hcon))
      · omega
    · intro hns evs2
      have hoc : o' ∈ w.submit.cancelled := by
        rw [hs]
        simp [if_neg hns]
      have hrun : MonoWorker.run (evs ++ DEvent.submit :: evs2)
          = evs2.foldl MonoWorker.applyEvent w.submit := by
        unfold MonoWorker.run
        rw [List.foldl_append]
        rfl
      rw [hrun]
      exact (winv_foldl (winv_submit hw) evs2).cns o'
        (cancelled_mono_foldl evs2 hoc)

/-- Closed instance of C8: with the backlog at capacity after two
submissions, the task evicted by a third submission (id 0) never starts,
even after the worker drains everything. -/
theorem C8_dispatcher_bound_witness :
    0 ∉ (MonoWorker.run ([DEvent.submit, DEvent.submit] ++ DEvent.submit
        :: [DEvent.step, DEvent.step, DEvent.step])).started :=
  ((C8_dispatcher_bound [DEvent.submit, DEvent.submit]).2.2.2 0 (by decide)
    (by decide)).2.2 (by decide) [DEvent.step, DEvent.step, DEvent.step]

/-! ### C10 -/

lemma zipWith_snd_eq {α β : Type} :
    ∀ (c : List α) (o : List β), c.length = o.length →
      List.zipWith (fun _ x => x) c o = o := by
  intro c
  induction c with
  | nil =>
    intro o h
    cases o
    · rfl
    · simp at h
  | cons a c ih =>
    intro o h
    cases o with
    | nil => simp at h
    | cons b o =>
      simp only [List.zipWith_cons_cons]
      rw [ih o (by simpa using h)]

lemma finallyRestore_eq (current originals : List (List LHandler))
    (h : current.length = originals.length) :
    finallyRestore current originals = originals := by
  unfold finallyRestore
  rw [zipWith_snd_eq current originals h,
      List.drop_eq_nil_of_le (le_of_eq h), List.append_nil]

/-- C10: when `logging_redirect_tqdm` exits — normally or through an
exception raised in the body — each logger's handlers attribute is
restored to exactly the handler list it had on entry; while the context
is active, the non-console handlers of each logger remain in its
installed handler list unchanged and in their original order. -/
theorem C10_logging_redirect {α : Type} (loggers : List (List LHandler))
    (body : List (List LHandler) → Except PyExn α × List (List LHandler))
    (hlen : (body (loggers.map redirectOne)).2.length = loggers.length) :
    (logging_redirect_tqdm loggers body).2 = loggers
    ∧ ∀ hs ∈ loggers,
        (redirectOne hs).take (hs.filter (fun h => !isConsoleHandler h)).length
          = hs.filter (fun h => !isConsoleHandler h) := by
  constructor
  · rcases hbody : body (loggers.map redirectOne) with ⟨r, afterBody⟩
    have hl : afterBody.length = loggers.length := by
      rw [hbody] at hlen
      exact hlen
    simp only [logging_redirect_tqdm, hbody]
    exact finallyRestore_eq afterBody loggers hl
  · intro hs _
    unfold redirectOne
    exact List.take_left _ _

/-- Closed instance of C10: a body that raises still leaves the single
logger's handlers exactly as they were on entry. -/
theorem C10_logging_redirect_witness :
    (logging_redirect_tqdm [[LHandler.stream 1 none, LHandler.other 5]]
      (fun st => ((Except.error PyExn.keyError : Except PyExn Unit), st))).2
      = [[LHandler.stream 1 none, LHandler.other 5]] :=
  (C10_logging_redirect [[LHandler.stream 1 none, LHandler.other 5]]
    (fun st => ((Except.error PyExn.keyError : Except PyExn Unit), st)) (by rfl)).1

end Tqdm
